import Mathlib

/-!
Verification development for the repository my-startup-file: a shallow
embedding of the Python modules timer.py, history.py, completer.py,
ctrl.py, enhanced_dir.py, backports.py and backports/backports2.py,
together with theorems settling the stated claims about them.

Time values (Python floats produced by timer functions) are modelled as
rationals.  Stateful Python objects are modelled as immutable structures
with each mutating method becoming a state-to-state function; every call
a method makes to the timer function is modelled by passing the reading
that call would return as an explicit argument.
-/

namespace MyStartup

/-! ## timer.py : class Stopwatch

The fields mirror the instance attributes of the Python class.  The
attribute `timer` (a function) is not stored: each operation instead
receives the reading the timer call would produce.  The attribute
`_start`, which Python deletes when the watch is not running, is an
`Option`.  The attributes `verbose` and `cutoff` only control printing
(`report`/`warn`), which has no effect on the recorded state; they are
kept as inert fields. -/

structure Stopwatch where
  _running : Bool
  _count : Nat
  _elapsed : ℚ
  _total : ℚ
  _start : Option ℚ
  verbose : Bool
  cutoff : Option ℚ
  deriving DecidableEq, Repr

namespace Stopwatch

/-- `__init__(timer=None, verbose=True, cutoff=0.001)` followed by the
`reset()` it performs: all counters zeroed, not running, `_start` unset. -/
def init (verbose : Bool := true) (cutoff : Option ℚ := some (1/1000)) : Stopwatch :=
  { _running := false, _count := 0, _elapsed := 0, _total := 0, _start := none,
    verbose := verbose, cutoff := cutoff }

/-- `reset()`: delete `_start`, clear the running flag and all totals. -/
def reset (sw : Stopwatch) : Stopwatch :=
  { sw with _running := false, _count := 0, _elapsed := 0, _total := 0, _start := none }

/-- `start()` where `t` is the reading `self.timer()` would return.  If the
stopwatch is already running this has no effect (the timer is not called). -/
def start (sw : Stopwatch) (t : ℚ) : Stopwatch :=
  if sw._running then sw
  else { sw with _running := true, _count := sw._count + 1, _start := some t }

/-- `stop()` where `t` is the reading `self.timer()` would return.  If the
stopwatch is already stopped this has no effect.  The `verbose` branch only
prints (`warn`/`report`) and does not change the state.  On every state the
source can reach, `_running = true` implies `_start` is set, so the
default value `0` of `getD` is never exercised there. -/
def stop (sw : Stopwatch) (t : ℚ) : Stopwatch :=
  if sw._running then
    { sw with _running := false, _elapsed := t - sw._start.getD 0,
              _total := sw._total + (t - sw._start.getD 0), _start := none }
  else sw

/-- property `running`: `bool(self._running)`. -/
def running (sw : Stopwatch) : Bool := sw._running

/-- property `elapsed`: while running it reads the timer (reading `t`),
otherwise it returns the stored `_elapsed`. -/
def elapsed (sw : Stopwatch) (t : ℚ) : ℚ :=
  if sw._running then t - sw._start.getD 0 else sw._elapsed

/-- property `total`: while running, `_total` plus the running elapsed
time (timer reading `t`); otherwise the stored `_total`. -/
def total (sw : Stopwatch) (t : ℚ) : ℚ :=
  if sw._running then sw._total + sw.elapsed t else sw._total

/-- property `count`. -/
def count (sw : Stopwatch) : Nat := sw._count

/-- `__enter__`: calls `start()` and returns `self`. -/
def enter (sw : Stopwatch) (t : ℚ) : Stopwatch := sw.start t

/-- `__exit__(*args)`: calls `stop()`; the method body has no `return`
statement, so Python returns `None`, modelled as the second component
`none : Option Bool`. -/
def exit (sw : Stopwatch) (t : ℚ) : Stopwatch × Option Bool :=
  (sw.stop t, none)

end Stopwatch

/-- Truth value of a Python `bool`-or-`None` object, as the `with`
statement tests the return of `__exit__`: `None` is false. -/
def pyTruthy : Option Bool → Bool
  | none => false
  | some b => b

/-- The wrapper `inner` built by `Stopwatch.decorate`.  `t1` is the timer
reading consumed by `__enter__` and `t2` the one consumed by `__exit__`;
`res` is the outcome of the wrapped function call (`.ok v` normal return,
`.error e` an exception).  Following the source: on a normal return the
`finally` clause calls `__exit__`; on an exception, `__exit__` is called
with the exception info and the exception is re-raised unless the return
of `__exit__` is true, in which case the wrapper falls off its end and
returns `None` (modelled `.ok none`). -/
def decorateInner {V E : Type} (sw : Stopwatch) (t1 t2 : ℚ)
    (res : Except E V) : Except E (Option V) × Stopwatch :=
  let sw1 := sw.enter t1
  match res with
  | .ok v => (.ok (some v), (sw1.exit t2).1)
  | .error e =>
      let r := sw1.exit t2
      if pyTruthy r.2 then (.ok none, r.1) else (.error e, r.1)

/-! ### Traces of Stopwatch operations

For claims about sequences of calls, a trace of `start`/`stop`/`reset`
calls is executed against a timer function `timer : Nat → ℚ` giving the
reading of the n-th timer call, with the number of timer calls made so
far threaded through the state. -/

inductive Op where
  | start : Op
  | stop : Op
  | reset : Op
  deriving DecidableEq, Repr

/-- One call.  `start`/`stop` consume a timer reading exactly when the
source would call `self.timer()` (that is, when they are not no-ops). -/
def stepOp (timer : Nat → ℚ) : Stopwatch × Nat → Op → Stopwatch × Nat
  | (sw, n), .start => if sw._running then (sw, n) else (sw.start (timer n), n + 1)
  | (sw, n), .stop => if sw._running then (sw.stop (timer n), n + 1) else (sw, n)
  | (sw, n), .reset => (sw.reset, n)

/-- Execute a whole trace of calls. -/
def runOps (timer : Nat → ℚ) (ops : List Op) (s : Stopwatch × Nat) : Stopwatch × Nat :=
  ops.foldl (stepOp timer) s

/-- The completed start/stop runs of a trace, as the list of elapsed
intervals (timer reading at stop minus timer reading at start), collected
since the most recent `reset`.  `r` is whether a run is open, `s` its
start reading, `n` the number of timer calls made, `acc` the completed
intervals so far. -/
def runsAux (timer : Nat → ℚ) : List Op → Bool → ℚ → Nat → List ℚ → List ℚ
  | [], _, _, _, acc => acc
  | .start :: ops, r, s, n, acc =>
      if r then runsAux timer ops r s n acc
      else runsAux timer ops true (timer n) (n + 1) acc
  | .stop :: ops, r, s, n, acc =>
      if r then runsAux timer ops false s (n + 1) (acc ++ [timer n - s])
      else runsAux timer ops r s n acc
  | .reset :: ops, _, s, n, _ => runsAux timer ops false s n []

/-- The elapsed intervals of the runs completed since the last reset, for
a trace started on a fresh stopwatch. -/
def completedRuns (timer : Nat → ℚ) (ops : List Op) : List ℚ :=
  runsAux timer ops false 0 0 []

/-- The flag tracked by a start/stop/reset trace: after `start` the
stopwatch is running, after `stop` or `reset` it is not. -/
def runFlag : Bool → Op → Bool
  | _, .start => true
  | _, .stop => false
  | _, .reset => false

/-! ## backports.py and backports/backports2.py : all, any

The element type and its Python truthiness (`bool(x)`) are abstracted as
a type with a boolean predicate; the iterable is a (finite) list. -/

namespace Backports

/-- `backports.all`: the for loop returns `False` at the first falsy
element, `True` if the loop completes. -/
def all {α : Type} (truthy : α → Bool) : List α → Bool
  | [] => true
  | element :: rest => if !(truthy element) then false else all truthy rest

/-- `backports.any`: the for loop returns `True` at the first truthy
element, `False` if the loop completes. -/
def any {α : Type} (truthy : α → Bool) : List α → Bool
  | [] => false
  | element :: rest => if truthy element then true else any truthy rest

end Backports

namespace Backports2

/-- `backports.backports2.all` (same body as `backports.all`). -/
def all {α : Type} (truthy : α → Bool) : List α → Bool
  | [] => true
  | element :: rest => if !(truthy element) then false else all truthy rest

/-- `backports.backports2.any` (same body as `backports.any`). -/
def any {α : Type} (truthy : α → Bool) : List α → Bool
  | [] => false
  | element :: rest => if truthy element then true else any truthy rest

end Backports2

/-! ## history.py : class History, and completer.py : Completer history

The readline and filesystem environment is abstracted: `expanduser` is
the `os.path.expanduser` function, and `readOK f` / `writeOK f` say
whether `readline.read_history_file(f)` / `readline.write_history_file(f)`
succeeds or raises an `IOError`/`OSError` (the only exceptions those
readline calls raise for an inaccessible file). -/

inductive HistErr where
  | ioError : HistErr
  | osError : HistErr
  deriving DecidableEq, Repr

structure FSEnv where
  expanduser : String → String
  readOK : String → Bool
  writeOK : String → Bool

/-- `readline.read_history_file(f)`: raises when the file is inaccessible. -/
def read_history_file (env : FSEnv) (f : String) : Except HistErr Unit :=
  if env.readOK f then .ok () else .error .ioError

/-- `readline.write_history_file(f)`: raises when the file is inaccessible. -/
def write_history_file (env : FSEnv) (f : String) : Except HistErr Unit :=
  if env.writeOK f then .ok () else .error .ioError

structure History where
  history_file : String
  history_length : Int

namespace History

/-- `History.read_history(filename=None)`: default the filename, expand
the user directory, and wrap the readline call in
`try: ... except (IOError, OSError): pass`. -/
def read_history (env : FSEnv) (h : History) (filename : Option String) :
    Except HistErr Unit :=
  let f := filename.getD h.history_file
  match read_history_file env (env.expanduser f) with
  | .ok _ => .ok ()
  | .error _ => .ok ()

/-- `History.write_history(filename=None)`: default the filename, expand
the user directory, and call readline with no exception handling. -/
def write_history (env : FSEnv) (h : History) (filename : Option String) :
    Except HistErr Unit :=
  let f := filename.getD h.history_file
  write_history_file env (env.expanduser f)

end History

/-- The `Completer` of completer.py, restricted to the attribute its
`read_history` method uses.  `history_file` is already expanded by
`__init__` and is a string (possibly empty). -/
structure Completer where
  history_file : String

/-- `Completer.read_history(filename=None)`: default the filename; only
when the name is truthy (non-empty), wrap the readline call in
`try: ... except (IOError, OSError): pass`. -/
def Completer.read_history (env : FSEnv) (c : Completer) (filename : Option String) :
    Except HistErr Unit :=
  let f := filename.getD c.history_file
  if f ≠ "" then
    match read_history_file env f with
    | .ok _ => .ok ()
    | .error _ => .ok ()
  else .ok ()

/-! ## ctrl.py : the control-code registry -/

/-- `class CtrlCode(namedtuple(...))`.  The `symbol` and `char`
properties play no role in the claims and are omitted. -/
structure CtrlCode where
  acronym : String
  ordinal : Int
  code : String
  description : String
  deriving DecidableEq, Repr

/-- The C0 table, in source order.  The source converts the list to a
dict keyed on the (distinct) acronyms; dict iteration order is insertion
order, so the list order is the iteration order of `C0.values()`. -/
def C0 : List CtrlCode := [
  ⟨"NUL", 0,   "^@",  "Null"⟩,
  ⟨"SOH", 1,   "^A",  "Start of Heading"⟩,
  ⟨"STX", 2,   "^B",  "Start of Text"⟩,
  ⟨"ETX", 3,   "^C",  "End of Text"⟩,
  ⟨"EOT", 4,   "^D",  "End of Transmission"⟩,
  ⟨"ENQ", 5,   "^E",  "Enquiry"⟩,
  ⟨"ACK", 6,   "^F",  "Acknowledge"⟩,
  ⟨"BEL", 7,   "^G",  "Bell"⟩,
  ⟨"BS",  8,   "^H",  "Backspace"⟩,
  ⟨"HT",  9,   "^I",  "Horizontal Tab (Character Tabulation)"⟩,
  ⟨"LF",  10,  "^J",  "Linefeed (LF) (Newline)"⟩,
  ⟨"VT",  11,  "^K",  "Vertical Tab (Line Tabulation)"⟩,
  ⟨"FF",  12,  "^L",  "Formfeed (FF)"⟩,
  ⟨"CR",  13,  "^M",  "Carriage Return (CR)"⟩,
  ⟨"SO",  14,  "^N",  "Shift Out"⟩,
  ⟨"SI",  15,  "^O",  "Shift In"⟩,
  ⟨"DLE", 16,  "^P",  "Data Link Escape"⟩,
  ⟨"DC1", 17,  "^Q",  "Device Control 1 (XON)"⟩,
  ⟨"DC2", 18,  "^R",  "Device Control 2"⟩,
  ⟨"DC3", 19,  "^S",  "Device Control 3 (XOFF)"⟩,
  ⟨"DC4", 20,  "^T",  "Device Control 4"⟩,
  ⟨"NAK", 21,  "^U",  "Negative Acknowledge"⟩,
  ⟨"SYN", 22,  "^V",  "Synchronous Idle"⟩,
  ⟨"ETB", 23,  "^W",  "End of Transmission Block"⟩,
  ⟨"CAN", 24,  "^X",  "Cancel"⟩,
  ⟨"EM",  25,  "^Y",  "End of Medium"⟩,
  ⟨"SUB", 26,  "^Z",  "Substitute"⟩,
  ⟨"ESC", 27,  "^[",  "Escape"⟩,
  ⟨"FS",  28,  "^\\", "File Separator"⟩,
  ⟨"GS",  29,  "^]",  "Group Separator"⟩,
  ⟨"RS",  30,  "^^",  "Record Separator"⟩,
  ⟨"US",  31,  "^_",  "Unit Separator"⟩,
  ⟨"SP",  32,  "",    "Space"⟩,
  ⟨"DEL", 127, "^?",  "Delete (Rubout)"⟩]

/-- The C1 table, in source order (see the comment on `C0`). -/
def C1 : List CtrlCode := [
  ⟨"PAD",  128, "ESC-@",  "Padding Character"⟩,
  ⟨"HOP",  129, "ESC-A",  "High Octet Preset"⟩,
  ⟨"BPH",  130, "ESC-B",  "Break Permitted Here"⟩,
  ⟨"NBH",  131, "ESC-C",  "No Break Here"⟩,
  ⟨"IND",  132, "ESC-D",  "Index"⟩,
  ⟨"NEL",  133, "ESC-E",  "Next Line (NEL)"⟩,
  ⟨"SSA",  134, "ESC-F",  "Start of Selected Area"⟩,
  ⟨"ESA",  135, "ESC-G",  "End of Selected Area"⟩,
  ⟨"HTS",  136, "ESC-H",  "Character Tabulation Set"⟩,
  ⟨"HTJ",  137, "ESC-I",  "Horizontal (Character) Tabulation With Justification"⟩,
  ⟨"VTS",  138, "ESC-J",  "Vertical (Line) Tabulation Set"⟩,
  ⟨"PLD",  139, "ESC-K",  "Partial Line Down (Forward)"⟩,
  ⟨"PLU",  140, "ESC-L",  "Partial Line Up (Backward)"⟩,
  ⟨"RI",   141, "ESC-M",  "Reverse Line Feed"⟩,
  ⟨"SS2",  142, "ESC-N",  "Single-Shift 2"⟩,
  ⟨"SS3",  143, "ESC-O",  "Single-Shift 3"⟩,
  ⟨"DCS",  144, "ESC-P",  "Device Control String"⟩,
  ⟨"PU1",  145, "ESC-Q",  "Private Use 1"⟩,
  ⟨"PU2",  146, "ESC-R",  "Private Use 2"⟩,
  ⟨"STS",  147, "ESC-S",  "Set Transmit State"⟩,
  ⟨"CCH",  148, "ESC-T",  "Cancel Character"⟩,
  ⟨"MW",   149, "ESC-U",  "Message Waiting"⟩,
  ⟨"SPA",  150, "ESC-V",  "Start of Protected Area"⟩,
  ⟨"EPA",  151, "ESC-W",  "End of Protected Area"⟩,
  ⟨"SOS",  152, "ESC-X",  "Start of String"⟩,
  ⟨"SGCI", 153, "ESC-Y",  "Single Graphic Character Introducer"⟩,
  ⟨"SCI",  154, "ESC-Z",  "Single Character Introducer"⟩,
  ⟨"CSI",  155, "ESC-[",  "Control Sequence Introducer"⟩,
  ⟨"ST",   156, "ESC-\\", "String Terminator"⟩,
  ⟨"OSC",  157, "ESC-]",  "Operating System Command"⟩,
  ⟨"PM",   158, "ESC-^",  "Privacy Message"⟩,
  ⟨"APC",  159, "ESC-_",  "Application Program Command"⟩]

/-- The registered codes in lookup order: `for C in (C0, C1)`. -/
def allCodes : List CtrlCode := C0 ++ C1

/-- The module-level name `SP` installed by `globals().update(C0)`. -/
def SP : CtrlCode := ⟨"SP", 32, "", "Space"⟩

/-- `str.upper`, for the ASCII strings the registry uses. -/
def upper (s : String) : String := s.map Char.toUpper

/-- The argument of `ctrl.lookup`: a Python int, a Python str, or any
other object (carrying the name of its type, used in the error text). -/
inductive CtrlArg where
  | int (n : Int) : CtrlArg
  | str (s : String) : CtrlArg
  | other (typeName : String) : CtrlArg
  deriving DecidableEq, Repr

inductive CtrlErr where
  | typeError (msg : String) : CtrlErr
  | lookupError : CtrlErr
  deriving DecidableEq, Repr

/-- `ctrl.lookup(obj)`.  An int selects on `ordinal`; a non-empty string
is uppercased and selects on `code` when it starts with `^` or `ESC`,
otherwise on `acronym`; the empty string returns `SP`; anything else is a
`TypeError`; a search with no match is a `LookupError`.  The double loop
`for C in (C0, C1): for c in C.values()` returning the first hit is the
first hit of `find?` on `allCodes`. -/
def lookup : CtrlArg → Except CtrlErr CtrlCode
  | .int n =>
      match allCodes.find? (fun c => c.ordinal == n) with
      | some c => .ok c
      | none => .error .lookupError
  | .str s =>
      if s = "" then .ok SP
      else
        let u := upper s
        if u.startsWith "^" || u.startsWith "ESC" then
          match allCodes.find? (fun c => c.code == u) with
          | some c => .ok c
          | none => .error .lookupError
        else
          match allCodes.find? (fun c => c.acronym == u) with
          | some c => .ok c
          | none => .error .lookupError
  | .other typeName =>
      .error (.typeError ("expected int or str, not " ++ typeName))

/-! ## enhanced_dir.py : glob filtering and edir

`fnmatch.fnmatchcase` from the standard library is modelled by a direct
glob matcher over character lists with the same semantics as the
regex-translation of fnmatch: `*` matches any run, `?` one character,
`[...]` a character class (with ranges, a leading `!` for negation, a
literal `]` first in the class, and an unterminated `[` matching a
literal `[`). -/

/-- Split a character-class body at its terminating `]`.  `none` means no
closing bracket: the `[` is then literal, as in fnmatch. -/
def splitBracket : List Char → Option (List Char × List Char)
  | [] => none
  | c :: rest =>
      if c = ']' then some ([], rest)
      else
        match splitBracket rest with
        | none => none
        | some (stuff, tail) => some (c :: stuff, tail)

/-- Parse the remainder `p` after a `[`: an optional leading `!`
(negation), an optional leading `]` taken literally, then the class body
up to the closing `]`.  Returns the negation flag, the class body, and
the rest of the pattern. -/
def parseClass (p : List Char) : Option (Bool × List Char × List Char) :=
  match p with
  | '!' :: ']' :: r =>
      match splitBracket r with
      | none => none
      | some (stuff, tail) => some (true, ']' :: stuff, tail)
  | '!' :: q =>
      match splitBracket q with
      | none => none
      | some (stuff, tail) => some (true, stuff, tail)
  | ']' :: r =>
      match splitBracket r with
      | none => none
      | some (stuff, tail) => some (false, ']' :: stuff, tail)
  | q =>
      match splitBracket q with
      | none => none
      | some (stuff, tail) => some (false, stuff, tail)

/-- Membership of a character in a class body: `a-b` is a range, any
other character is a literal (a `-` first or last is literal, as in a
regex class). -/
def memberOfClass (c : Char) : List Char → Bool
  | a :: '-' :: b :: rest => (a ≤ c && c ≤ b) || memberOfClass c rest
  | a :: rest => (c == a) || memberOfClass c rest
  | [] => false

theorem splitBracket_tail_lt : ∀ (l a b : List Char),
    splitBracket l = some (a, b) → b.length < l.length := by
  intro l
  induction l with
  | nil => intro a b h; simp [splitBracket] at h
  | cons c rest ih =>
    intro a b h
    by_cases hc : c = ']'
    · subst hc; simp [splitBracket] at h
      simp [h.2.symm, List.length_cons]
    · simp [splitBracket, hc] at h
      cases hsb : splitBracket rest with
      | none => rw [hsb] at h; simp at h
      | some p =>
        rw [hsb] at h
        cases p with
        | mk st tl =>
          simp at h
          have := ih st tl hsb
          simp [h.2.symm, List.length_cons]; omega

theorem parseClass_tail_lt : ∀ (p : List Char) (neg : Bool) (stuff tail : List Char),
    parseClass p = some (neg, stuff, tail) → tail.length < p.length := by
  intro p neg stuff tail h
  rw [parseClass.eq_def] at h
  split at h <;> (split at h <;> simp_all) <;>
    (have hb := splitBracket_tail_lt _ _ _ (by assumption); omega)

/-- The glob matcher: `fnAux pattern s` decides whether the whole string
`s` matches the whole glob `pattern`. -/
def fnAux : List Char → List Char → Bool
  | [], [] => true
  | [], _ :: _ => false
  | '*' :: p, s =>
      fnAux p s ||
        (match s with
         | [] => false
         | _ :: rest => fnAux ('*' :: p) rest)
  | '?' :: p, s =>
      (match s with
       | [] => false
       | _ :: rest => fnAux p rest)
  | '[' :: p, s =>
      (match hpc : parseClass p with
       | none =>
          match s with
          | c :: rest => ('[' == c) && fnAux p rest
          | [] => false
       | some (neg, stuff, tail) =>
          match s with
          | c :: rest => (neg != memberOfClass c stuff) && fnAux tail rest
          | [] => false)
  | a :: p, s =>
      (match s with
       | c :: rest => (a == c) && fnAux p rest
       | [] => false)
  termination_by p s => p.length + s.length
  decreasing_by
    all_goals simp_all [List.length_cons]
    all_goals try omega
    · have := parseClass_tail_lt _ _ _ _ hpc; omega

/-- `fnmatch.fnmatchcase(name, pat)`. -/
def fnmatchcase (name pat : String) : Bool := fnAux pat.data name.data

/-- `casefold = str.casefold` (falling back to `str.lower`): modelled as
character-wise lowering, which agrees with both on the ASCII range. -/
def casefold (s : String) : String := s.map Char.toLower

/-- Python substring containment `needle in hay` (contiguous). -/
def containsSub (needle : List Char) : List Char → Bool
  | [] => needle.isEmpty
  | c :: rest => needle.isPrefixOf (c :: rest) || containsSub needle rest

/-- `any(c in glob for c in '*?[')`: does the glob contain a
metacharacter. -/
def hasMetachars (glob : String) : Bool :=
  ['*', '?', '['].any (fun c => glob.data.contains c)

/-- `_matcher(glob, invert)`: factory returning the match function,
`fnmatchcase` when the glob has metacharacters and substring containment
otherwise, with the sense reversed when `invert` is set. -/
def _matcher (glob : String) (invert : Bool) : String → Bool :=
  let base : String → Bool :=
    if hasMetachars glob then fun name => fnmatchcase name glob
    else fun name => containsSub glob.data name.data
  if invert then fun name => !(base name) else base

/-- `_filter(names, glob)`: strip a leading `!=`, `!` or `=` (setting the
invert and case-sensitive flags), casefold the glob unless
case-sensitive, and keep the names selected by `_matcher` (applied to
the casefolded name unless case-sensitive).  The `assert isinstance(glob,
str)` of the source is expressed by the type of `glob`. -/
def _filter (names : List String) (glob : String) : List String :=
  if glob = "" then names
  else
    let ics : Bool × Bool × String :=
      if glob.startsWith "!=" then (true, true, glob.drop 2)
      else if glob.startsWith "!" then (true, false, glob.drop 1)
      else if glob.startsWith "=" then (false, true, glob.drop 1)
      else (false, false, glob)
    let invert := ics.1
    let case_sensitive := ics.2.1
    let g := if case_sensitive then ics.2.2 else casefold ics.2.2
    let m := _matcher g invert
    if case_sensitive then names.filter (fun nm => m nm)
    else names.filter (fun nm => m (casefold nm))

/-- The per-name selection rule of the claim, stated pointwise in the
order the claim gives: an empty glob selects every name; a leading `!`
or `!=` inverts the selection; a glob beginning with `=` or `!=` is
case-sensitive (after stripping the prefix); a glob without the
metacharacters `*`, `?`, `[` selects the names containing it as a
substring, one with metacharacters selects the fnmatch-style matches;
matching is on casefolded strings unless case-sensitive. -/
def globSelects (glob : String) (name : String) : Bool :=
  if glob = "" then true
  else
    let stripped : Bool × Bool × String :=
      if glob.startsWith "!=" then (true, true, glob.drop 2)
      else if glob.startsWith "!" then (true, false, glob.drop 1)
      else if glob.startsWith "=" then (false, true, glob.drop 1)
      else (false, false, glob)
    let invert := stripped.1
    let caseSensitive := stripped.2.1
    let g := if caseSensitive then stripped.2.2 else casefold stripped.2.2
    let nm := if caseSensitive then name else casefold name
    let hit := if hasMetachars g then fnmatchcase nm g
               else containsSub g.data nm.data
    if invert then !hit else hit

/-- `_ismagic(s)`. -/
def _ismagic (s : String) : Bool := s.startsWith "_"

/-- `_isdunder(s)`. -/
def _isdunder (s : String) : Bool := s.startsWith "__" && s.endsWith "__"

/-- A Python value, as far as the arguments of `edir` need: strings,
ints, bools, `None`, and arbitrary other objects identified by a tag. -/
inductive PyVal where
  | none : PyVal
  | bool (b : Bool) : PyVal
  | int (n : Int) : PyVal
  | str (s : String) : PyVal
  | obj (id : Nat) : PyVal
  deriving DecidableEq, Repr

/-- Python truthiness of a `PyVal` (arbitrary objects are truthy). -/
def pyTruthyVal : PyVal → Bool
  | .none => false
  | .bool b => b
  | .int n => n != 0
  | .str s => s != ""
  | .obj _ => true

/-- Python `==` against a small int literal, as `omit in (0, 1, 2)` and
`omit == 2` use it (a bool equals its int value in Python). -/
def pyEqInt (v : PyVal) (n : Int) : Bool :=
  match v with
  | .int m => m == n
  | .bool b => (if b then (1 : Int) else 0) == n
  | _ => false

inductive DirErr where
  | typeError (msg : String) : DirErr
  | valueError (msg : String) : DirErr
  | assertionError : DirErr
  deriving DecidableEq, Repr

/-- `_filter_magic(names, omit)`: `ValueError` unless `omit` equals 0, 1
or 2; omit dunder names at 1 and all underscore-names at 2. -/
def _filter_magic (names : List String) (omitv : PyVal) :
    Except DirErr (List String) :=
  if !(pyEqInt omitv 0 || pyEqInt omitv 1 || pyEqInt omitv 2) then
    .error (.valueError "omit must be one of 0, 1 or 2")
  else if pyEqInt omitv 2 then .ok (names.filter (fun nm => !(_ismagic nm)))
  else if pyEqInt omitv 1 then .ok (names.filter (fun nm => !(_isdunder nm)))
  else .ok names

/-- The ambient state `edir` consults: whether Python runs interactively
(`hasattr(sys, "ps1")`), the optional `edir.omit` attribute, the local
names of the calling frame, and the reflection primitives
`original_dir(obj)` and `dir(metaclass-of-obj)`. -/
structure DirEnv where
  interactive : Bool
  edirOmit : Option PyVal
  localNames : List String
  dirOf : PyVal → List String
  metaDirOf : PyVal → List String

/-- `sorted(set(names))`. -/
def sortedSet (l : List String) : List String :=
  (l.eraseDups).mergeSort (fun a b => a ≤ b)

/-- `_getattrnames(obj, meta)`. -/
def _getattrnames (env : DirEnv) (obj : PyVal) (meta : Bool) : List String :=
  let names := env.dirOf obj
  let names := if meta then names ++ env.metaDirOf obj else names
  sortedSet names

/-- `dict.pop(k, d)` on keyword arguments (keys are unique in a Python
dict, so removing every pair with the key is the same as removing one). -/
def popKw (kwargs : List (String × PyVal)) (k : String) (d : PyVal) :
    PyVal × List (String × PyVal) :=
  match kwargs.find? (fun p => p.1 == k) with
  | some p => (p.2, kwargs.filter (fun q => q.1 ≠ k))
  | none => (d, kwargs)

/-- `edir(*args, **kwargs)`: pop at most an object and a glob from the
positional arguments (`TypeError` beyond two), default the glob from the
keyword arguments, pop `meta` and `omit`, resolve the `omit` default
(from the `edir.omit` attribute only interactively), reject any leftover
keyword argument, collect the names (caller locals when no object was
given), then apply `_filter` and `_filter_magic`.  A non-string glob
fails the `assert isinstance(glob, str)` inside `_filter`. -/
def edir (env : DirEnv) (args : List PyVal) (kwargs : List (String × PyVal)) :
    Except DirErr (List String) :=
  let p1 : Option PyVal × List PyVal :=
    match args with
    | [] => (none, [])
    | a :: rest => (some a, rest)
  let p2 : Option PyVal × List PyVal :=
    match p1.2 with
    | [] => (none, [])
    | a :: rest => (some a, rest)
  if p2.2 ≠ [] then .error (.typeError "too many arguments")
  else
    let gk : PyVal × List (String × PyVal) :=
      match p2.1 with
      | some g => (g, kwargs)
      | none => popKw kwargs "glob" (.str "")
    let mp := popKw gk.2 "meta" (.bool false)
    let op := popKw mp.2 "omit" .none
    let omitv : PyVal :=
      if op.1 = PyVal.none then
        if env.interactive then env.edirOmit.getD (.int 0) else .int 0
      else op.1
    if op.2 ≠ [] then .error (.typeError "unexpected keyword argument")
    else
      let names : List String :=
        match p1.1 with
        | none => env.localNames.mergeSort (fun a b => a ≤ b)
        | some o => _getattrnames env o (pyTruthyVal mp.1)
      match gk.1 with
      | .str g => _filter_magic (_filter names g) omitv
      | _ => .error .assertionError

/-! ## Theorems -/

/-- Invariant lemma for claim C3: along any trace, the stored `_total`
equals the sum of the completed intervals collected by `runsAux`, given
that the accumulator already sums to `_total` and that the recorded
start reading is `s` whenever the stopwatch is running. -/
theorem runOps_total_eq (timer : Nat → ℚ) :
    ∀ (ops : List Op) (sw : Stopwatch) (n : Nat) (s : ℚ) (acc : List ℚ),
      sw._total = acc.sum →
      (sw._running = true → sw._start = some s) →
      ((runOps timer ops (sw, n)).1)._total
        = (runsAux timer ops sw._running s n acc).sum := by
  intro ops
  induction ops with
  | nil => intro sw n s acc h1 h2; simpa [runOps, runsAux] using h1
  | cons op ops ih =>
    intro sw n s acc h1 h2
    have hstep : runOps timer (op :: ops) (sw, n)
        = runOps timer ops (stepOp timer (sw, n) op) := rfl
    cases op with
    | start =>
      cases hr : sw._running with
      | true =>
        rw [hstep]
        simp only [stepOp, hr, if_pos]
        rw [ih sw n s acc h1 h2]
        simp [runsAux, hr]
      | false =>
        rw [hstep]
        simp only [stepOp, hr, Bool.false_eq_true, if_neg, not_false_iff]
        have h1a : (sw.start (timer n))._total = acc.sum := by
          simp [Stopwatch.start, hr, h1]
        have h2a : (sw.start (timer n))._running = true →
            (sw.start (timer n))._start = some (timer n) := by
          simp [Stopwatch.start, hr]
        have := ih (sw.start (timer n)) (n + 1) (timer n) acc h1a h2a
        rw [this]
        simp [Stopwatch.start, hr, runsAux]
    | stop =>
      cases hr : sw._running with
      | true =>
        rw [hstep]
        simp only [stepOp, hr, if_pos]
        have hs : sw._start = some s := h2 hr
        have h1a : (sw.stop (timer n))._total = (acc ++ [timer n - s]).sum := by
          simp [Stopwatch.stop, hr, hs, h1]
        have h2a : (sw.stop (timer n))._running = true →
            (sw.stop (timer n))._start = some s := by
          simp [Stopwatch.stop, hr]
        have := ih (sw.stop (timer n)) (n + 1) s (acc ++ [timer n - s]) h1a h2a
        rw [this]
        simp [Stopwatch.stop, hr, runsAux]
      | false =>
        rw [hstep]
        simp only [stepOp, hr, Bool.false_eq_true, if_neg, not_false_iff]
        rw [ih sw n s acc h1 h2]
        simp [runsAux, hr]
    | reset =>
      rw [hstep]
      simp only [stepOp]
      have h1a : sw.reset._total = ([] : List ℚ).sum := by simp [Stopwatch.reset]
      have h2a : sw.reset._running = true → sw.reset._start = some s := by
        simp [Stopwatch.reset]
      have := ih sw.reset n s [] h1a h2a
      rw [this]
      simp [Stopwatch.reset, runsAux]

/-- Helper for claim C6: along any trace the running flag is exactly the
fold of `runFlag`, true after a `start`, false after a `stop` or
`reset`. -/
theorem runOps_running_eq (timer : Nat → ℚ) :
    ∀ (ops : List Op) (sw : Stopwatch) (n : Nat),
      ((runOps timer ops (sw, n)).1)._running = ops.foldl runFlag sw._running := by
  intro ops
  induction ops with
  | nil => intro sw n; rfl
  | cons op ops ih =>
    intro sw n
    have hstep : runOps timer (op :: ops) (sw, n)
        = runOps timer ops (stepOp timer (sw, n) op) := rfl
    cases op with
    | start =>
      cases hr : sw._running with
      | true =>
        rw [hstep]; simp only [stepOp, hr, if_pos]
        rw [ih sw n]; simp [List.foldl, runFlag, hr]
      | false =>
        rw [hstep]; simp only [stepOp, hr, Bool.false_eq_true, if_neg, not_false_iff]
        rw [ih (sw.start (timer n)) (n + 1)]
        simp [Stopwatch.start, hr, List.foldl, runFlag]
    | stop =>
      cases hr : sw._running with
      | true =>
        rw [hstep]; simp only [stepOp, hr, if_pos]
        rw [ih (sw.stop (timer n)) (n + 1)]
        simp [Stopwatch.stop, hr, List.foldl, runFlag]
      | false =>
        rw [hstep]; simp only [stepOp, hr, Bool.false_eq_true, if_neg, not_false_iff]
        rw [ih sw n]; simp [List.foldl, runFlag, hr]
    | reset =>
      rw [hstep]; simp only [stepOp]
      rw [ih sw.reset n]
      simp [Stopwatch.reset, List.foldl, runFlag]

/-- Claim C1, counterexample.  The claim says that when the body raises,
`__exit__` returns a true value and the exception is suppressed.  At a
concrete started stopwatch, the value `__exit__` returns (`None`) is not
true, and the wrapper built by `decorate` propagates the inner
exception instead of swallowing it. -/
theorem claim_C1_counterexample :
    pyTruthy (((Stopwatch.init true none).enter 1).exit 2).2 = false ∧
    (decorateInner (V := Unit) (E := Unit) (Stopwatch.init true none) 1 2
        (Except.error ())).1 = Except.error () :=
  ⟨rfl, rfl⟩

/-- Claim C1, amended: `__exit__` always returns `None`, a false value,
so an inner exception is never suppressed: the wrapper produced by
`Stopwatch.decorate` re-raises the exception of a raising body (and a
non-raising body returns its value normally). -/
theorem claim_C1_exit_returns_none_and_exception_propagates :
    (∀ (sw : Stopwatch) (t : ℚ), (sw.exit t).2 = none) ∧
    (∀ (V E : Type) (sw : Stopwatch) (t1 t2 : ℚ) (e : E),
      (decorateInner (V := V) sw t1 t2 (Except.error e)).1 = Except.error e) ∧
    (∀ (V E : Type) (sw : Stopwatch) (t1 t2 : ℚ) (v : V),
      (decorateInner (E := E) sw t1 t2 (Except.ok v)).1 = Except.ok (some v)) :=
  ⟨fun _ _ => rfl, fun _ _ _ _ _ _ => rfl, fun _ _ _ _ _ _ => rfl⟩

/-- Claim C2, counterexample.  The claim says that with two nested
`with` blocks on one instance, exiting the inner block leaves the
stopwatch still running.  On a concrete fresh stopwatch, after the outer
and inner `__enter__`, the inner `__exit__` already leaves the running
property false. -/
theorem claim_C2_counterexample :
    ((((Stopwatch.init true none).enter 1).enter 2).exit 3).1.running = false := rfl

/-- Claim C2, amended: `start` (and `__enter__`) on a running stopwatch
leaves the state unchanged (running flag, count, and the recorded start
timestamp, the whole state), but in two nested `with` blocks the inner
`__exit__` already stops the stopwatch: the timing stops at the inner
exit, and the outer exit has no further effect. -/
theorem claim_C2_start_reentrant_but_inner_exit_stops :
    (∀ (sw : Stopwatch) (t : ℚ), sw.running = true →
      sw.start t = sw ∧ sw.enter t = sw) ∧
    (∀ (sw : Stopwatch) (t1 t2 t3 t4 : ℚ),
      (sw.enter t1).enter t2 = sw.enter t1 ∧
      (((sw.enter t1).enter t2).exit t3).1.running = false ∧
      ((((sw.enter t1).enter t2).exit t3).1.exit t4).1
        = (((sw.enter t1).enter t2).exit t3).1) := by
  constructor
  · intro sw t h
    have hr : sw._running = true := h
    constructor <;> simp [Stopwatch.start, Stopwatch.enter, hr]
  · intro sw t1 t2 t3 t4
    cases hr : sw._running <;>
      simp [Stopwatch.enter, Stopwatch.start, Stopwatch.exit, Stopwatch.stop,
            Stopwatch.running, hr]

/-- Witness for claim C2 at concrete inputs: a second `start` on a
started stopwatch changes nothing, and the inner exit of two nested
enters leaves the stopwatch not running. -/
theorem claim_C2_witness :
    ((Stopwatch.init true none).start 1).start 2
        = (Stopwatch.init true none).start 1 ∧
    ((((Stopwatch.init true none).enter 1).enter 2).exit 3).1.running = false :=
  ⟨(claim_C2_start_reentrant_but_inner_exit_stops.1
      ((Stopwatch.init true none).start 1) 2 rfl).1,
   (claim_C2_start_reentrant_but_inner_exit_stops.2
      (Stopwatch.init true none) 1 2 3 4).2.1⟩

/-- Claim C3: after any sequence of start/stop/reset calls that leaves
the stopwatch not running, the `total` property equals the sum of the
elapsed intervals (timer reading at stop minus timer reading at start)
of the runs completed since the last reset. -/
theorem claim_C3_total_is_sum_of_completed_runs
    (timer : Nat → ℚ) (ops : List Op) (v : Bool) (c : Option ℚ) (t : ℚ)
    (h : ((runOps timer ops (Stopwatch.init v c, 0)).1).running = false) :
    ((runOps timer ops (Stopwatch.init v c, 0)).1).total t
      = (completedRuns timer ops).sum := by
  have key := runOps_total_eq timer ops (Stopwatch.init v c) 0 0 []
    (by simp [Stopwatch.init]) (by simp [Stopwatch.init])
  have hr : ((runOps timer ops (Stopwatch.init v c, 0)).1)._running = false := h
  simp only [Stopwatch.total, hr, Bool.false_eq_true, if_neg, not_false_iff]
  simpa [Stopwatch.init, completedRuns] using key

/-- Witness for claim C3 on a concrete trace of two completed runs
against the timer reading n+1 at the n-th call. -/
theorem claim_C3_witness :
    ((runOps (fun n => (n : ℚ) + 1) [Op.start, Op.stop, Op.start, Op.stop]
        (Stopwatch.init true none, 0)).1).total 0
      = (completedRuns (fun n => (n : ℚ) + 1)
          [Op.start, Op.stop, Op.start, Op.stop]).sum :=
  claim_C3_total_is_sum_of_completed_runs
    (fun n => (n : ℚ) + 1) [Op.start, Op.stop, Op.start, Op.stop]
    true none 0 rfl

/-- Claim C5: one completed run records the duration between its start
and stop readings: after `start` at reading `t1` and `stop` at reading
`t2` from a non-running state, the `elapsed` property equals `t2 - t1`,
the `count` property grew by exactly one, and the `total` property grew
by exactly that elapsed duration. -/
theorem claim_C5_run_records_duration
    (sw : Stopwatch) (t1 t2 t3 : ℚ) (h : sw.running = false) :
    ((sw.start t1).stop t2).elapsed t3 = t2 - t1 ∧
    ((sw.start t1).stop t2).count = sw.count + 1 ∧
    ((sw.start t1).stop t2).total t3 = sw.total t3 + (t2 - t1) := by
  have hr : sw._running = false := h
  refine ⟨?_, ?_, ?_⟩ <;>
    simp [Stopwatch.start, Stopwatch.stop, Stopwatch.elapsed, Stopwatch.total,
          Stopwatch.count, hr]

/-- Witness for claim C5 on a fresh stopwatch with readings 1 and 3. -/
theorem claim_C5_witness :
    (((Stopwatch.init true none).start 1).stop 3).elapsed 0 = 3 - 1 ∧
    (((Stopwatch.init true none).start 1).stop 3).count
      = (Stopwatch.init true none).count + 1 ∧
    (((Stopwatch.init true none).start 1).stop 3).total 0
      = (Stopwatch.init true none).total 0 + (3 - 1) :=
  claim_C5_run_records_duration (Stopwatch.init true none) 1 3 0 rfl

/-- Claim C6: every operation preserves "stopped implies not running".
Immediately after `stop` or `__exit__` the running property is false;
immediately after `start` or `__enter__` it is true; after `__init__`
and after `reset` it is false; and along any trace of calls the running
property is true exactly between a `start` and the next `stop` or
`reset` (the fold of `runFlag`). -/
theorem claim_C6_running_invariant :
    (∀ (sw : Stopwatch) (t : ℚ), (sw.stop t).running = false) ∧
    (∀ (sw : Stopwatch) (t : ℚ), ((sw.exit t).1).running = false) ∧
    (∀ (sw : Stopwatch) (t : ℚ), (sw.start t).running = true) ∧
    (∀ (sw : Stopwatch) (t : ℚ), (sw.enter t).running = true) ∧
    (∀ (v : Bool) (c : Option ℚ), (Stopwatch.init v c).running = false) ∧
    (∀ sw : Stopwatch, sw.reset.running = false) ∧
    (∀ (timer : Nat → ℚ) (ops : List Op) (v : Bool) (c : Option ℚ),
      ((runOps timer ops (Stopwatch.init v c, 0)).1).running
        = ops.foldl runFlag false) := by
  refine ⟨?_, ?_, ?_, ?_, ?_, ?_, ?_⟩
  · intro sw t
    cases hr : sw._running <;>
      simp [Stopwatch.stop, Stopwatch.running, hr]
  · intro sw t
    cases hr : sw._running <;>
      simp [Stopwatch.exit, Stopwatch.stop, Stopwatch.running, hr]
  · intro sw t
    cases hr : sw._running <;>
      simp [Stopwatch.start, Stopwatch.running, hr]
  · intro sw t
    cases hr : sw._running <;>
      simp [Stopwatch.enter, Stopwatch.start, Stopwatch.running, hr]
  · intro v c; rfl
  · intro sw; rfl
  · intro timer ops v c
    have := runOps_running_eq timer ops (Stopwatch.init v c) 0
    simpa [Stopwatch.init] using this

/-- Claim C4, counterexample.  The claim says missing-file errors are
caught and ignored both when reading and when writing.  In an
environment where every write fails, `History.write_history` raises
(returns the error) instead of returning normally. -/
theorem claim_C4_counterexample :
    History.write_history ⟨id, fun _ => false, fun _ => false⟩
        ⟨"~/.python_history", 500⟩ none
      = Except.error HistErr.ioError := rfl

/-- Claim C4, amended: missing-file errors (IOError/OSError) are caught
and ignored when reading a history file — `History.read_history` and
`Completer.read_history` always return normally — but not when writing:
`History.write_history` propagates the error exactly when the underlying
readline write on the expanded filename fails. -/
theorem claim_C4_read_ignores_errors_write_propagates :
    (∀ (env : FSEnv) (h : History) (filename : Option String),
      History.read_history env h filename = Except.ok ()) ∧
    (∀ (env : FSEnv) (c : Completer) (filename : Option String),
      Completer.read_history env c filename = Except.ok ()) ∧
    (∀ (env : FSEnv) (h : History) (filename : Option String),
      History.write_history env h filename
        = (if env.writeOK (env.expanduser (filename.getD h.history_file))
           then Except.ok () else Except.error HistErr.ioError)) := by
  refine ⟨?_, ?_, ?_⟩
  · intro env h filename
    unfold History.read_history read_history_file
    dsimp only
    split <;> rfl
  · intro env c filename
    unfold Completer.read_history read_history_file
    dsimp only
    split
    · split <;> rfl
    · rfl
  · intro env h filename
    rfl

/-- Claim C10: the backported `all` and `any` (in both backports.py and
backports/backports2.py) agree extensionally with the built-ins they
shim: on every finite iterable, `any` is true iff some element is
truthy, `all` is true iff every element is truthy, with `any` false and
`all` true on the empty iterable, and both agree with the Lean list
functions `List.any` and `List.all`. -/
theorem claim_C10_backports_all_any_agree_with_builtins :
    ∀ (α : Type) (truthy : α → Bool) (l : List α),
      (Backports.all truthy l = true ↔ ∀ x ∈ l, truthy x = true) ∧
      (Backports.any truthy l = true ↔ ∃ x ∈ l, truthy x = true) ∧
      Backports2.all truthy l = Backports.all truthy l ∧
      Backports2.any truthy l = Backports.any truthy l ∧
      Backports.all truthy ([] : List α) = true ∧
      Backports.any truthy ([] : List α) = false ∧
      Backports.all truthy l = l.all truthy ∧
      Backports.any truthy l = l.any truthy := by
  have hall : ∀ (α : Type) (truthy : α → Bool) (l : List α),
      Backports.all truthy l = l.all truthy := by
    intro α truthy l
    induction l with
    | nil => rfl
    | cons a rest ih => cases ht : truthy a <;> simp [Backports.all, ht, ih]
  have hany : ∀ (α : Type) (truthy : α → Bool) (l : List α),
      Backports.any truthy l = l.any truthy := by
    intro α truthy l
    induction l with
    | nil => rfl
    | cons a rest ih => cases ht : truthy a <;> simp [Backports.any, ht, ih]
  have hall2 : ∀ (α : Type) (truthy : α → Bool) (l : List α),
      Backports2.all truthy l = Backports.all truthy l := by
    intro α truthy l
    induction l with
    | nil => rfl
    | cons a rest ih => cases ht : truthy a <;> simp [Backports.all, Backports2.all, ht, ih]
  have hany2 : ∀ (α : Type) (truthy : α → Bool) (l : List α),
      Backports2.any truthy l = Backports.any truthy l := by
    intro α truthy l
    induction l with
    | nil => rfl
    | cons a rest ih => cases ht : truthy a <;> simp [Backports.any, Backports2.any, ht, ih]
  intro α truthy l
  refine ⟨?_, ?_, hall2 α truthy l, hany2 α truthy l, rfl, rfl,
    hall α truthy l, hany α truthy l⟩
  · rw [hall]; exact List.all_eq_true
  · rw [hany]; exact List.any_eq_true

/-- `find?` on a list whose matches are pairwise equal finds exactly the
matching member. -/
theorem find?_eq_some_iff_inj {α : Type} (l : List α) (p : α → Bool)
    (hinj : ∀ a ∈ l, ∀ b ∈ l, p a = true → p b = true → a = b) (c : α) :
    l.find? p = some c ↔ c ∈ l ∧ p c = true := by
  constructor
  · intro h; exact ⟨List.mem_of_find?_eq_some h, List.find?_some h⟩
  · rintro ⟨hm, hp⟩
    cases hf : l.find? p with
    | none =>
      exact absurd hp (by simpa using List.find?_eq_none.mp hf c hm)
    | some d =>
      have hd := List.find?_some hf
      have hdm := List.mem_of_find?_eq_some hf
      rw [hinj d hdm c hm hd hp]

/-- The 66 registered control codes have pairwise distinct ordinals. -/
theorem allCodes_ordinal_inj :
    ∀ a ∈ allCodes, ∀ b ∈ allCodes, a.ordinal = b.ordinal → a = b := by
  have h : ((allCodes.map (fun c => c.ordinal)).Nodup) := by decide
  exact fun a ha b hb hab => List.inj_on_of_nodup_map h ha hb hab

/-- The 66 registered control codes have pairwise distinct codes. -/
theorem allCodes_code_inj :
    ∀ a ∈ allCodes, ∀ b ∈ allCodes, a.code = b.code → a = b := by
  have h : ((allCodes.map (fun c => c.code)).Nodup) := by decide
  exact fun a ha b hb hab => List.inj_on_of_nodup_map h ha hb hab

/-- The 66 registered control codes have pairwise distinct acronyms. -/
theorem allCodes_acronym_inj :
    ∀ a ∈ allCodes, ∀ b ∈ allCodes, a.acronym = b.acronym → a = b := by
  have h : ((allCodes.map (fun c => c.acronym)).Nodup) := by decide
  exact fun a ha b hb hab => List.inj_on_of_nodup_map h ha hb hab

/-- Claim C9: `ctrl.lookup` returns, for an int, the registered code
with that ordinal; for a string, the string is uppercased and the
registered code with that `code` (when the uppercased string starts with
`^` or `ESC`) or that `acronym` is returned, the empty string returning
the `SP` entry; a `LookupError` is raised exactly when no entry matches;
and any other argument raises a `TypeError`. -/
theorem claim_C9_lookup_characterization :
    (∀ (n : Int) (c : CtrlCode),
        lookup (.int n) = .ok c ↔ c ∈ allCodes ∧ c.ordinal = n) ∧
    (∀ n : Int, lookup (.int n) = .error .lookupError
        ↔ ∀ c ∈ allCodes, c.ordinal ≠ n) ∧
    (∀ (s : String) (c : CtrlCode),
        lookup (.str s) = .ok c ↔
          (if s = "" then c = SP
           else c ∈ allCodes ∧
             (if (upper s).startsWith "^" || (upper s).startsWith "ESC"
              then c.code = upper s else c.acronym = upper s))) ∧
    (∀ s : String, lookup (.str s) = .error .lookupError ↔
        (s ≠ "" ∧ ∀ c ∈ allCodes,
          (if (upper s).startsWith "^" || (upper s).startsWith "ESC"
           then c.code ≠ upper s else c.acronym ≠ upper s))) ∧
    (∀ tn : String, lookup (.other tn)
        = .error (.typeError ("expected int or str, not " ++ tn))) := by
  refine ⟨?_, ?_, ?_, ?_, fun tn => rfl⟩
  · intro n c
    have hinj : ∀ a ∈ allCodes, ∀ b ∈ allCodes,
        (a.ordinal == n) = true → (b.ordinal == n) = true → a = b := by
      intro a ha b hb hpa hpb
      rw [beq_iff_eq] at hpa hpb
      exact allCodes_ordinal_inj a ha b hb (hpa.trans hpb.symm)
    have hiff := find?_eq_some_iff_inj allCodes (fun c => c.ordinal == n) hinj c
    have hstep : (lookup (.int n) = .ok c)
        ↔ allCodes.find? (fun c => c.ordinal == n) = some c := by
      unfold lookup
      cases hf : allCodes.find? (fun c => c.ordinal == n) <;> simp [hf]
    rw [hstep, hiff]
    simp
  · intro n
    have hstep : (lookup (.int n) = .error .lookupError)
        ↔ allCodes.find? (fun c => c.ordinal == n) = none := by
      unfold lookup
      cases hf : allCodes.find? (fun c => c.ordinal == n) <;> simp [hf]
    rw [hstep, List.find?_eq_none]
    simp
  · intro s c
    by_cases hs : s = ""
    · subst hs
      unfold lookup
      simp [eq_comm]
    · by_cases hu : (upper s).startsWith "^" || (upper s).startsWith "ESC"
      · have hinj : ∀ a ∈ allCodes, ∀ b ∈ allCodes,
            (a.code == upper s) = true → (b.code == upper s) = true → a = b := by
          intro a ha b hb hpa hpb
          rw [beq_iff_eq] at hpa hpb
          exact allCodes_code_inj a ha b hb (hpa.trans hpb.symm)
        have hiff := find?_eq_some_iff_inj allCodes
          (fun c => c.code == upper s) hinj c
        have hstep : (lookup (.str s) = .ok c)
            ↔ allCodes.find? (fun c => c.code == upper s) = some c := by
          simp only [lookup]
          rw [if_neg hs]
          rw [if_pos hu]
          cases hf : allCodes.find? (fun c => c.code == upper s) <;> simp [hf]
        rw [hstep, hiff, if_neg hs, if_pos hu]
        simp
      · have hinj : ∀ a ∈ allCodes, ∀ b ∈ allCodes,
            (a.acronym == upper s) = true → (b.acronym == upper s) = true → a = b := by
          intro a ha b hb hpa hpb
          rw [beq_iff_eq] at hpa hpb
          exact allCodes_acronym_inj a ha b hb (hpa.trans hpb.symm)
        have hiff := find?_eq_some_iff_inj allCodes
          (fun c => c.acronym == upper s) hinj c
        have hstep : (lookup (.str s) = .ok c)
            ↔ allCodes.find? (fun c => c.acronym == upper s) = some c := by
          simp only [lookup]
          rw [if_neg hs]
          rw [if_neg hu]
          cases hf : allCodes.find? (fun c => c.acronym == upper s) <;> simp [hf]
        rw [hstep, hiff, if_neg hs, if_neg hu]
        simp
  · intro s
    by_cases hs : s = ""
    · subst hs
      unfold lookup
      simp
    · by_cases hu : (upper s).startsWith "^" || (upper s).startsWith "ESC"
      · have hstep : (lookup (.str s) = .error .lookupError)
            ↔ allCodes.find? (fun c => c.code == upper s) = none := by
          simp only [lookup]
          rw [if_neg hs]
          rw [if_pos hu]
          cases hf : allCodes.find? (fun c => c.code == upper s) <;> simp [hf]
        rw [hstep, List.find?_eq_none]
        simp only [if_pos hu]
        simp [hs]
      · have hstep : (lookup (.str s) = .error .lookupError)
            ↔ allCodes.find? (fun c => c.acronym == upper s) = none := by
          simp only [lookup]
          rw [if_neg hs]
          rw [if_neg hu]
          cases hf : allCodes.find? (fun c => c.acronym == upper s) <;> simp [hf]
        rw [hstep, List.find?_eq_none]
        simp only [if_neg hu]
        simp [hs]

/-- Claim C7: the glob filtering of the attribute lister selects, from
any list of names and for any glob, exactly the names picked by the
pointwise selection rule of the claim: an empty glob selects every name;
a leading `!` or `!=` inverts the selection; a glob beginning with `=`
or `!=` matches case-sensitively, otherwise both sides are casefolded; a
glob without the metacharacters `*`, `?`, `[` selects the names
containing it as a substring, and a glob with metacharacters selects the
fnmatch-style matches. -/
theorem claim_C7_filter_agrees_with_selection_rules :
    ∀ (names : List String) (glob : String),
      _filter names glob = names.filter (fun nm => globSelects glob nm) := by
  intro names glob
  by_cases hg : glob = ""
  · subst hg
    simp [_filter, globSelects]
  · by_cases h1 : glob.startsWith "!="
    · simp only [_filter, globSelects, if_neg hg, if_pos h1]
      apply List.filter_congr
      intro nm hm
      simp only [_matcher]
      cases hmc : hasMetachars (glob.drop 2) <;> simp [hmc]
    · by_cases h2 : glob.startsWith "!"
      · simp only [_filter, globSelects, if_neg hg, if_neg h1, if_pos h2]
        apply List.filter_congr
        intro nm hm
        simp only [_matcher]
        cases hmc : hasMetachars (casefold (glob.drop 1)) <;> simp [hmc]
      · by_cases h3 : glob.startsWith "="
        · simp only [_filter, globSelects, if_neg hg, if_neg h1, if_neg h2, if_pos h3]
          apply List.filter_congr
          intro nm hm
          simp only [_matcher]
          cases hmc : hasMetachars (glob.drop 1) <;> simp [hmc]
        · simp only [_filter, globSelects, if_neg hg, if_neg h1, if_neg h2, if_neg h3]
          apply List.filter_congr
          intro nm hm
          simp only [_matcher]
          cases hmc : hasMetachars (casefold glob) <;> simp [hmc]

/-- Popping one key from the keyword arguments keeps every pair with a
different key. -/
theorem popKw_mem_of_ne (kwargs : List (String × PyVal)) (k : String) (d : PyVal)
    (p : String × PyVal) (hp : p ∈ kwargs) (hne : p.1 ≠ k) :
    p ∈ (popKw kwargs k d).2 := by
  unfold popKw
  cases hf : kwargs.find? (fun q => q.1 == k) with
  | none => simpa using hp
  | some q =>
    simp only
    rw [List.mem_filter]
    exact ⟨hp, by simpa using hne⟩

/-- Claim C8, counterexample.  The claim quantifies over every call with
an unknown keyword argument, but a call that also passes three
positional arguments raises `TypeError("too many arguments")` before the
keyword arguments are examined, not
`TypeError("unexpected keyword argument")`. -/
theorem claim_C8_counterexample :
    edir ⟨false, none, [], fun _ => [], fun _ => []⟩
        [PyVal.obj 0, PyVal.str "", PyVal.obj 1] [("dunders", PyVal.bool false)]
      = Except.error (DirErr.typeError "too many arguments") ∧
    DirErr.typeError "too many arguments"
      ≠ DirErr.typeError "unexpected keyword argument" :=
  ⟨rfl, by decide⟩

/-- Claim C8, amended: for every call of `edir` passing at most two
positional arguments and any keyword argument whose name is not `glob`,
`meta` or `omit`, `edir` raises
`TypeError("unexpected keyword argument")`; in particular the keyword
`dunders`, which the module docstring uses, is rejected this way rather
than suppressing dunder names.  (With three or more positional
arguments, `TypeError("too many arguments")` is raised first.) -/
theorem claim_C8_unknown_kwarg_raises_TypeError
    (env : DirEnv) (args : List PyVal) (kwargs : List (String × PyVal))
    (hargs : args.length ≤ 2)
    (hbad : ∃ p ∈ kwargs, p.1 ∉ (["glob", "meta", "omit"] : List String)) :
    edir env args kwargs = Except.error (DirErr.typeError "unexpected keyword argument") := by
  obtain ⟨p, hp, hnot⟩ := hbad
  have hg : p.1 ≠ "glob" := fun h => hnot (by simp [h])
  have hm : p.1 ≠ "meta" := fun h => hnot (by simp [h])
  have ho : p.1 ≠ "omit" := fun h => hnot (by simp [h])
  have main : ∀ (kw0 : List (String × PyVal)), p ∈ kw0 →
      (popKw (popKw kw0 "meta" (.bool false)).2 "omit" PyVal.none).2 ≠ [] := by
    intro kw0 hp0
    exact List.ne_nil_of_mem
      (popKw_mem_of_ne _ _ _ _ (popKw_mem_of_ne _ _ _ _ hp0 hm) ho)
  rcases args with _ | ⟨a, _ | ⟨b, _ | ⟨c, rest⟩⟩⟩
  · have hmem : p ∈ (popKw kwargs "glob" (PyVal.str "")).2 :=
      popKw_mem_of_ne _ _ _ _ hp hg
    unfold edir
    simp only [ne_eq, not_true_eq_false, if_false, reduceIte]
    rw [if_pos (main _ hmem)]
  · have hmem : p ∈ (popKw kwargs "glob" (PyVal.str "")).2 :=
      popKw_mem_of_ne _ _ _ _ hp hg
    unfold edir
    simp only [ne_eq, not_true_eq_false, if_false, reduceIte]
    rw [if_pos (main _ hmem)]
  · unfold edir
    simp only [ne_eq, not_true_eq_false, if_false, reduceIte]
    rw [if_pos (main _ hp)]
  · exfalso
    simp [List.length_cons] at hargs

/-- Witness for claim C8: `edir(obj, dunders=False)` raises
`TypeError("unexpected keyword argument")`. -/
theorem claim_C8_witness :
    edir ⟨false, none, [], fun _ => [], fun _ => []⟩ [PyVal.obj 0]
        [("dunders", PyVal.bool false)]
      = Except.error (DirErr.typeError "unexpected keyword argument") :=
  claim_C8_unknown_kwarg_raises_TypeError _ _ _ (by simp)
    ⟨("dunders", PyVal.bool false), by simp, by decide⟩

end MyStartup
